import Mathlib

/-!
# Alligator backend (`server.js`): a shallow embedding and its contract

The Express application of `server.js` is modelled as pure functions over an
explicit state.  The state holds the two MongoDB collections (`User`, `Post`)
in insertion order, the names of the files multer has written under
`public/images`, and the supply of fresh ObjectIds.

The libraries the file calls are taken as parameters (`Crypto`): `bcrypt.hash`,
`bcrypt.compare`, `jwt.sign` and `jwt.verify`.  The randomness and the clock
they read (`salt`, `Date.now()`) are explicit arguments of the handlers.

Request fields are typed the way the handlers use them: `username`, `password`
are strings, `followId` is an ObjectId, `content`, `video` and the file part
are optional.
-/

namespace Alligator

/-! ## Data model (`userSchema`, `postSchema`) -/

/-- The type `mongoose.Schema.Types.ObjectId`. -/
abbrev ObjectId := Nat

/-- An entry of `notifications: Array`; the payload is not interpreted. -/
abbrev Mixed := String

/-- A document of the `User` collection. -/
structure User where
  _id : ObjectId
  username : String
  password : String
  profilePicture : Option String
  followers : List ObjectId
  notifications : List Mixed
deriving DecidableEq, Repr

/-- An element of `replies: [{ user: String, comment: String }]`. -/
structure Reply where
  user : String
  comment : String
deriving DecidableEq, Repr

/-- A document of the `Post` collection. -/
structure Post where
  _id : ObjectId
  user : ObjectId
  content : Option String
  image : Option String
  video : Option String
  likes : Int
  views : Int
  replies : List Reply
  createdAt : Nat
deriving DecidableEq, Repr

/-- A post after `.populate('user')`: the reference is replaced by the
referenced document, or by `null` when no document has that `_id`. -/
structure PopulatedPost where
  _id : ObjectId
  user : Option User
  content : Option String
  image : Option String
  video : Option String
  likes : Int
  views : Int
  replies : List Reply
  createdAt : Nat
deriving DecidableEq, Repr

/-- The database, the upload directory and the ObjectId supply. -/
structure State where
  users : List User
  posts : List Post
  disk : List String
  nextId : ObjectId
deriving DecidableEq, Repr

/-- The state before any request. -/
def State.empty : State := ⟨[], [], [], 0⟩

/-! ## Responses -/

/-- What a handler writes with `res.json` or `res.sendStatus`. -/
inductive Body where
  | text (s : String)
  | message (s : String)
  | token (s : String)
  | posts (l : List PopulatedPost)
  | users (l : List User)
  | notifications (l : List Mixed)
deriving DecidableEq, Repr

/-- An HTTP response. -/
structure Response where
  status : Nat
  body : Body
deriving DecidableEq, Repr

/-- An exception thrown inside a handler. -/
inductive JsError where
  | typeError
deriving DecidableEq, Repr

/-- The end of a request: either the handler sent a response, or it threw and
nothing in `server.js` caught the exception (no response is written by the
handler). -/
inductive Outcome where
  | sent (r : Response)
  | uncaught (e : JsError)
deriving DecidableEq, Repr

/-- The status code of the response, when one was sent. -/
def Outcome.status : Outcome → Option Nat
  | .sent r => some r.status
  | .uncaught _ => none

/-! ## The libraries, as parameters -/

/-- The object `user` that `jwt.verify` hands to its callback: the signed
`{ id }` together with the `iat` field `jwt.sign` adds. -/
structure JwtPayload where
  id : ObjectId
  iat : Nat
deriving DecidableEq, Repr

/-- The four library calls of `server.js`.
`hash p salt` is `bcrypt.hash(p, 10)` drawing `salt`;
`compare p h` is `bcrypt.compare(p, h)`;
`sign i now` is `jwt.sign({ id: i }, 'secretkey')` at time `now`;
`verify t` is `jwt.verify(t, 'secretkey', cb)`, `none` standing for `err`. -/
structure Crypto where
  hash : String → Nat → String
  compare : String → String → Bool
  sign : ObjectId → Nat → String
  verify : String → Option JwtPayload

/-- What the handlers rely on from the libraries: a password matches its own
hash, a signed token verifies to what was signed, and a token is not the
empty string. -/
structure Crypto.Lawful (E : Crypto) : Prop where
  compare_hash : ∀ p salt, E.compare p (E.hash p salt) = true
  verify_sign : ∀ i now, E.verify (E.sign i now) = some ⟨i, now⟩
  sign_ne_empty : ∀ i now, E.sign i now ≠ ""

/-! ## Collection operations -/

/-- The query `User.findOne({ username })`: the first document, in insertion
order, with that username. -/
def findOne (us : List User) (username : String) : Option User :=
  us.find? (fun u => u.username == username)

/-- The query `User.findById(id)`. -/
def findById (us : List User) (id : ObjectId) : Option User :=
  us.find? (fun u => u._id == id)

/-- The call `user.save()` on a loaded document: the stored document with the
same `_id` is replaced. -/
def saveUser (us : List User) (doc : User) : List User :=
  us.map (fun u => if u._id = doc._id then doc else u)

/-- The effect of `.populate('user')` on one post. -/
def populate (us : List User) (p : Post) : PopulatedPost :=
  { _id := p._id, user := findById us p.user, content := p.content,
    image := p.image, video := p.video, likes := p.likes, views := p.views,
    replies := p.replies, createdAt := p.createdAt }

/-! ## Middleware -/

deriving instance DecidableEq for Except

/-- The middleware `authenticateToken`: `Except.error r` when it answers `r`
itself, `Except.ok user` when it sets `req.user = user` and calls `next()`.
`!token` holds for an absent header and for the empty string. -/
def authenticateToken (E : Crypto) (authorization : Option String) :
    Except Response JwtPayload :=
  match authorization with
  | none => .error ⟨403, .text "Forbidden"⟩
  | some token =>
    if token = "" then .error ⟨403, .text "Forbidden"⟩
    else
      match E.verify token with
      | none => .error ⟨403, .text "Forbidden"⟩
      | some user => .ok user

/-- The file part named `image` of a multipart request. -/
structure UploadedFile where
  originalname : String
deriving DecidableEq, Repr

/-- The `filename` callback of `multer.diskStorage`:
`Date.now() + '-' + file.originalname`. -/
def filename (now : Nat) (file : UploadedFile) : String :=
  toString now ++ "-" ++ file.originalname

/-- The middleware `upload.single('image')`: the file, if any, is written under
`public/images` and `req.file.filename` is its stored name. -/
def uploadSingle (now : Nat) (file : Option UploadedFile) (s : State) :
    Option String × State :=
  match file with
  | none => (none, s)
  | some f => (some (filename now f), { s with disk := s.disk ++ [filename now f] })

/-! ## Route handlers -/

/-- The handler of `POST /register`. -/
def register (E : Crypto) (salt : Nat) (username password : String) (s : State) :
    Outcome × State :=
  let hashedPassword := E.hash password salt
  let user : User :=
    { _id := s.nextId, username := username, password := hashedPassword,
      profilePicture := none, followers := [], notifications := [] }
  (.sent ⟨200, .message "User created"⟩,
   { s with users := s.users ++ [user], nextId := s.nextId + 1 })

/-- The handler of `POST /login`. -/
def login (E : Crypto) (now : Nat) (username password : String) (s : State) :
    Outcome × State :=
  match findOne s.users username with
  | none => (.sent ⟨403, .message "Invalid credentials"⟩, s)
  | some user =>
    if E.compare password user.password = false then
      (.sent ⟨403, .message "Invalid credentials"⟩, s)
    else
      (.sent ⟨200, .token (E.sign user._id now)⟩, s)

/-- The fields of the body of `POST /post`. -/
structure PostBody where
  content : Option String
  video : Option String
deriving DecidableEq, Repr

/-- The handler of `POST /post`, behind `authenticateToken` and
`upload.single('image')`.  `tUpload` is the clock read by the `filename`
callback, `tCreate` the one read by the `createdAt` default. -/
def createPost (E : Crypto) (tUpload tCreate : Nat) (authorization : Option String)
    (body : PostBody) (file : Option UploadedFile) (s : State) : Outcome × State :=
  match authenticateToken E authorization with
  | .error r => (.sent r, s)
  | .ok user =>
    let (stored, s1) := uploadSingle tUpload file s
    let post : Post :=
      { _id := s1.nextId, user := user.id, content := body.content,
        image := match stored with
          | some name => some ("/images/" ++ name)
          | none => none,
        video := body.video, likes := 0, views := 0, replies := [],
        createdAt := tCreate }
    (.sent ⟨200, .message "Post created"⟩,
     { s1 with posts := s1.posts ++ [post], nextId := s1.nextId + 1 })

/-- The handler of `GET /posts`. -/
def listPosts (E : Crypto) (authorization : Option String) (s : State) :
    Outcome × State :=
  match authenticateToken E authorization with
  | .error r => (.sent r, s)
  | .ok _ => (.sent ⟨200, .posts (s.posts.map (populate s.users))⟩, s)

/-- The handler of `POST /follow`.  `user.followers.push` on the `null` that
`findById` returns for an unknown `_id` throws a `TypeError`. -/
def follow (E : Crypto) (authorization : Option String) (followId : ObjectId)
    (s : State) : Outcome × State :=
  match authenticateToken E authorization with
  | .error r => (.sent r, s)
  | .ok reqUser =>
    match findById s.users reqUser.id with
    | none => (.uncaught .typeError, s)
    | some user =>
      let user := { user with followers := user.followers ++ [followId] }
      (.sent ⟨200, .message "User followed"⟩, { s with users := saveUser s.users user })

/-- The handler of `GET /notifications`. -/
def getNotifications (E : Crypto) (authorization : Option String) (s : State) :
    Outcome × State :=
  match authenticateToken E authorization with
  | .error r => (.sent r, s)
  | .ok reqUser =>
    match findById s.users reqUser.id with
    | none => (.uncaught .typeError, s)
    | some user => (.sent ⟨200, .notifications user.notifications⟩, s)

/-! ## The pattern of `/search`

`new RegExp(query, 'i')` treats the query as a pattern, and the query
`{ username: pattern }` tests it against every stored username.  The model
covers the patterns built from ordinary ASCII characters and `.`, tested
against ASCII usernames, and the empty pattern tested against any username.
Outside of that (other pattern syntax, characters beyond ASCII, whose case
folding the `i` flag takes from Unicode) the functions below return `none` and
the model says nothing about the request. -/

/-- One element of a compiled pattern. -/
inductive Atom where
  | char (c : Char)
  | any
deriving DecidableEq, Repr

/-- A compiled pattern: a sequence of atoms. -/
abbrev RegExp := List Atom

/-- The characters with a meaning of their own in a pattern. -/
def syntaxChars : List Char :=
  ['\\', '^', '$', '.', '*', '+', '?', '(', ')', '[', ']', '\x7b', '\x7d', '|']

/-- The characters `.` does not match. -/
def lineTerminators : List Char := ['\n', '\r', '\u2028', '\u2029']

/-- Whether every character is an ASCII character. -/
def isAscii (cs : List Char) : Bool := cs.all (fun c => decide (c.toNat < 128))

/-- Case folding of the `i` flag on an ASCII character: the character is
compared through its upper-case form. -/
def canonicalize (c : Char) : Char := c.toUpper

/-- Compilation of the characters of a pattern; `none` on pattern syntax other
than `.` and on a character beyond ASCII. -/
def compileChars : List Char → Option RegExp
  | [] => some []
  | c :: cs =>
    if c = '.' then (compileChars cs).map (fun r => Atom.any :: r)
    else if c ∈ syntaxChars ∨ 128 ≤ c.toNat then none
    else (compileChars cs).map (fun r => Atom.char c :: r)

/-- The constructor `new RegExp(query, 'i')`; an `undefined` query gives the
empty pattern. -/
def RegExp.compile (query : Option String) : Option RegExp :=
  match query with
  | none => some []
  | some q => compileChars q.data

/-- Whether an atom accepts a character. -/
def Atom.accepts : Atom → Char → Bool
  | .char c, d => canonicalize c == canonicalize d
  | .any, d => !(lineTerminators.contains d)

/-- Whether the pattern matches at the start of the text. -/
def matchHere : RegExp → List Char → Bool
  | [], _ => true
  | _ :: _, [] => false
  | a :: as, d :: ds => a.accepts d && matchHere as ds

/-- Whether the pattern matches somewhere in the text. -/
def matchAnywhere (re : RegExp) : List Char → Bool
  | [] => matchHere re []
  | d :: ds => matchHere re (d :: ds) || matchAnywhere re ds

/-- The test of one username against the pattern; `none` for a non-empty
pattern against a username with a character beyond ASCII. -/
def testUsername (re : RegExp) (username : String) : Option Bool :=
  if re.isEmpty || isAscii username.data then some (matchAnywhere re username.data)
  else none

/-- The query `User.find({ username: re })`: the documents whose
username the pattern matches, in store order. -/
def findByUsername (re : RegExp) : List User → Option (List User)
  | [] => some []
  | u :: us =>
    match testUsername re u.username, findByUsername re us with
    | some true, some r => some (u :: r)
    | some false, some r => some r
    | _, _ => none

/-- The handler of `GET /search`; `none` when the request is outside the
modelled patterns and usernames. -/
def search (E : Crypto) (authorization : Option String) (query : Option String)
    (s : State) : Option (Outcome × State) :=
  match authenticateToken E authorization with
  | .error r => some (.sent r, s)
  | .ok _ =>
    match RegExp.compile query with
    | none => none
    | some re =>
      match findByUsername re s.users with
      | none => none
      | some users => some (.sent ⟨200, .users users⟩, s)

/-- The reading of `/search` in the specification: the username contains the
query as a substring once letter case is ignored, that is, the lower-cased
username contains the lower-cased query. -/
def containsIgnoreCase (username query : String) : Bool :=
  decide (query.data.map Char.toLower <:+: username.data.map Char.toLower)

/-! ## A concrete instance of the libraries

Used to run the handlers on concrete requests.  A hash is the salt written in
unary followed by the password; a token is the identifier and the time written
in unary. -/

/-- The instance `hash`. -/
def demoHash (p : String) (salt : Nat) : String :=
  String.mk (List.replicate salt '$' ++ '#' :: p.data)

/-- The instance `compare`. -/
def demoCompare (p h : String) : Bool :=
  h.data.dropWhile (fun c => c == '$') == '#' :: p.data

/-- The instance `sign`. -/
def demoSign (i now : Nat) : String :=
  String.mk (List.replicate i 'i' ++ '.' :: List.replicate now 't')

/-- The instance `verify`. -/
def demoVerify (t : String) : Option JwtPayload :=
  match t.data.dropWhile (fun c => c == 'i') with
  | '.' :: r =>
    if r.all (fun c => c == 't') then
      some ⟨(t.data.takeWhile (fun c => c == 'i')).length, r.length⟩
    else none
  | _ => none

/-- The instance. -/
def demoCrypto : Crypto := ⟨demoHash, demoCompare, demoSign, demoVerify⟩

/-! ## Runs of the server -/

/-- Every `User` document has its own `_id` (MongoDB's unique index on `_id`). -/
def UniqueIds (s : State) : Prop := (s.users.map (fun u => u._id)).Nodup

instance (s : State) : Decidable (UniqueIds s) :=
  inferInstanceAs (Decidable (List.Nodup (s.users.map (fun (u : User) => u._id))))

/-- One request to one of the seven endpoints, with arbitrary headers and
fields, taking the state `s` to `s'`. -/
inductive Step (E : Crypto) : State → State → Prop where
  | register (salt : Nat) (u p : String) (s : State) :
      Step E s (register E salt u p s).2
  | login (now : Nat) (u p : String) (s : State) :
      Step E s (login E now u p s).2
  | createPost (tU tC : Nat) (a : Option String) (body : PostBody)
      (file : Option UploadedFile) (s : State) :
      Step E s (createPost E tU tC a body file s).2
  | listPosts (a : Option String) (s : State) :
      Step E s (listPosts E a s).2
  | search (a q : Option String) (s : State) (out : Outcome) (s' : State) :
      search E a q s = some (out, s') → Step E s s'
  | follow (a : Option String) (followId : ObjectId) (s : State) :
      Step E s (follow E a followId s).2
  | getNotifications (a : Option String) (s : State) :
      Step E s (getNotifications E a s).2

/-- The states reached from the empty state by any sequence of requests. -/
def Reachable (E : Crypto) (s : State) : Prop :=
  Relation.ReflTransGen (Step E) State.empty s

/-- The runs from the empty state made of registrations, logins, and post
creations and follows that `authenticateToken` accepts. -/
inductive AuthRun (E : Crypto) : State → Prop where
  | init : AuthRun E State.empty
  | register (salt : Nat) (u p : String) {s : State} :
      AuthRun E s → AuthRun E (register E salt u p s).2
  | login (now : Nat) (u p : String) {s : State} :
      AuthRun E s → AuthRun E (login E now u p s).2
  | createPost (tU tC : Nat) (a : Option String) (body : PostBody)
      (file : Option UploadedFile) (r : JwtPayload) {s : State} :
      AuthRun E s → authenticateToken E a = .ok r →
      AuthRun E (createPost E tU tC a body file s).2
  | follow (a : Option String) (followId : ObjectId) (r : JwtPayload) {s : State} :
      AuthRun E s → authenticateToken E a = .ok r →
      AuthRun E (follow E a followId s).2

/-- The same runs, with one more condition on post creation: the acting
identity `req.user.id` is the `_id` of a user stored at the time of the
request. -/
inductive ResolvedRun (E : Crypto) : State → Prop where
  | init : ResolvedRun E State.empty
  | register (salt : Nat) (u p : String) {s : State} :
      ResolvedRun E s → ResolvedRun E (register E salt u p s).2
  | login (now : Nat) (u p : String) {s : State} :
      ResolvedRun E s → ResolvedRun E (login E now u p s).2
  | createPost (tU tC : Nat) (a : Option String) (body : PostBody)
      (file : Option UploadedFile) (r : JwtPayload) {s : State} :
      ResolvedRun E s → authenticateToken E a = .ok r →
      r.id ∈ s.users.map (fun u => u._id) →
      ResolvedRun E (createPost E tU tC a body file s).2
  | follow (a : Option String) (followId : ObjectId) (r : JwtPayload) {s : State} :
      ResolvedRun E s → authenticateToken E a = .ok r →
      ResolvedRun E (follow E a followId s).2

/-- The fields no endpoint writes after creation: the counters and replies of
every post, and the notification list of every user. -/
def Untouched (s : State) : Prop :=
  (∀ p ∈ s.posts, p.likes = 0 ∧ p.views = 0 ∧ p.replies = []) ∧
  (∀ u ∈ s.users, u.notifications = [])

/-- What holds along a `ResolvedRun`: identifiers are unique and below the
supply, and every post refers to the `_id` of a stored user. -/
def RunInv (s : State) : Prop :=
  UniqueIds s ∧
  (∀ i ∈ s.users.map (fun u => u._id), i < s.nextId) ∧
  (∀ p ∈ s.posts, p.user ∈ s.users.map (fun u => u._id))

/-- A run on the instance: "alice" registers and logs in. -/
def demoLoggedIn : State :=
  (login demoCrypto 5 "alice" "pw" (register demoCrypto 2 "alice" "pw" State.empty).2).2

/-- The token of that login. -/
def demoToken : String := demoCrypto.sign 0 5

/-- The run continued: "alice" creates two posts with the token. -/
def demoTwoPosts : State :=
  (createPost demoCrypto 20 21 (some demoToken) ⟨some "second", none⟩ none
    (createPost demoCrypto 17 18 (some demoToken) ⟨some "first", none⟩ none demoLoggedIn).2).2

/-- The run continued otherwise: a post is created with a token that verifies
for the `_id` 7, which no user has. -/
def demoDangling : State :=
  (createPost demoCrypto 17 18 (some (demoCrypto.sign 7 0)) ⟨some "hi", none⟩ none
    demoLoggedIn).2

/-! ## Lemmas on the middleware and the queries -/

theorem authenticateToken_error (E : Crypto) (a : Option String)
    (h : a = none ∨ a = some "" ∨ ∃ t, a = some t ∧ E.verify t = none) :
    authenticateToken E a = .error ⟨403, .text "Forbidden"⟩ := by
  rcases h with h | h | ⟨t, h, hv⟩
  · subst h; rfl
  · subst h; rfl
  · subst h
    unfold authenticateToken
    by_cases ht : t = ""
    · simp [ht]
    · simp [ht, hv]

theorem authenticateToken_sign {E : Crypto} (hE : E.Lawful) (i now : Nat) :
    authenticateToken E (some (E.sign i now)) = .ok ⟨i, now⟩ := by
  unfold authenticateToken
  simp [hE.sign_ne_empty, hE.verify_sign]

theorem demoCrypto_lawful : demoCrypto.Lawful := by
  constructor
  · intro p salt
    show demoCompare p (demoHash p salt) = true
    unfold demoCompare demoHash
    induction salt with
    | zero => simp [List.dropWhile]
    | succ n ih => simp [List.replicate_succ, List.dropWhile]
  · intro i now
    show demoVerify (demoSign i now) = some ⟨i, now⟩
    have h1 : ∀ (n : Nat) (r : List Char),
        (List.replicate n 'i' ++ '.' :: r).dropWhile (fun c => c == 'i') = '.' :: r := by
      intro n r
      induction n with
      | zero => simp [List.dropWhile]
      | succ n ih => simp [List.replicate_succ, List.dropWhile]
    have h2 : ∀ (n : Nat) (r : List Char),
        ((List.replicate n 'i' ++ '.' :: r).takeWhile (fun c => c == 'i')).length = n := by
      intro n r
      induction n with
      | zero => simp [List.takeWhile]
      | succ n ih => simp [List.replicate_succ, List.takeWhile]
    unfold demoVerify demoSign
    simp only [h1, h2]
    simp
  · intro i now h
    have := congrArg String.length h
    simp [demoCrypto, demoSign, String.length] at this

/-! ## The contract -/

/-- C1: a request to an authenticated endpoint whose Authorization header is
missing, empty, or rejected by `jwt.verify` is answered 403 by
`authenticateToken`; neither the upload step nor the handler runs, so the
state (collections and upload directory) is the one before the request. -/
theorem unauthenticated_request_is_rejected (E : Crypto) (s : State)
    (authorization : Option String)
    (h : authorization = none ∨ authorization = some "" ∨
      ∃ t, authorization = some t ∧ E.verify t = none) :
    (∀ tU tC body file,
      createPost E tU tC authorization body file s = (.sent ⟨403, .text "Forbidden"⟩, s)) ∧
    listPosts E authorization s = (.sent ⟨403, .text "Forbidden"⟩, s) ∧
    (∀ q, search E authorization q s = some (.sent ⟨403, .text "Forbidden"⟩, s)) ∧
    (∀ followId, follow E authorization followId s = (.sent ⟨403, .text "Forbidden"⟩, s)) ∧
    getNotifications E authorization s = (.sent ⟨403, .text "Forbidden"⟩, s) := by
  have ha := authenticateToken_error E authorization h
  refine ⟨?_, ?_, ?_, ?_, ?_⟩
  · intro tU tC body file
    simp [createPost, ha]
  · simp [listPosts, ha]
  · intro q
    simp [search, ha]
  · intro followId
    simp [follow, ha]
  · simp [getNotifications, ha]

/-- Witness of C1: a header the instance rejects, on the state after one
registration. -/
theorem unauthenticated_request_is_rejected_witness :
    (∀ tU tC body file,
      createPost demoCrypto tU tC (some "Bearer x") body file
          (register demoCrypto 0 "alice" "pw" State.empty).2
        = (.sent ⟨403, .text "Forbidden"⟩, (register demoCrypto 0 "alice" "pw" State.empty).2)) ∧
    listPosts demoCrypto (some "Bearer x") (register demoCrypto 0 "alice" "pw" State.empty).2
      = (.sent ⟨403, .text "Forbidden"⟩, (register demoCrypto 0 "alice" "pw" State.empty).2) ∧
    (∀ q, search demoCrypto (some "Bearer x") q (register demoCrypto 0 "alice" "pw" State.empty).2
      = some (.sent ⟨403, .text "Forbidden"⟩, (register demoCrypto 0 "alice" "pw" State.empty).2)) ∧
    (∀ followId,
      follow demoCrypto (some "Bearer x") followId (register demoCrypto 0 "alice" "pw" State.empty).2
        = (.sent ⟨403, .text "Forbidden"⟩, (register demoCrypto 0 "alice" "pw" State.empty).2)) ∧
    getNotifications demoCrypto (some "Bearer x") (register demoCrypto 0 "alice" "pw" State.empty).2
      = (.sent ⟨403, .text "Forbidden"⟩, (register demoCrypto 0 "alice" "pw" State.empty).2) :=
  unauthenticated_request_is_rejected demoCrypto _ (some "Bearer x")
    (Or.inr (Or.inr ⟨"Bearer x", rfl, by decide⟩))

/-- C3: `login` answers 403 exactly when `findOne` finds no user with the
username or `bcrypt.compare` rejects the password against the found user's
hash; otherwise it answers with `jwt.sign` of the found user's `_id`; the
state is unchanged either way. -/
theorem login_forbidden_iff (E : Crypto) (now : Nat) (username password : String)
    (s : State) :
    ((login E now username password s).1.status = some 403 ↔
      (findOne s.users username = none ∨
        ∃ v, findOne s.users username = some v ∧ E.compare password v.password = false)) ∧
    (∀ v, findOne s.users username = some v → E.compare password v.password = true →
      (login E now username password s).1 = .sent ⟨200, .token (E.sign v._id now)⟩) ∧
    (login E now username password s).2 = s := by
  unfold login
  cases hf : findOne s.users username with
  | none => simp [Outcome.status]
  | some v =>
    cases hc : E.compare password v.password <;> simp [Outcome.status, hc]

/-- Witness of C3: a registered user logging in with the right password. -/
theorem login_forbidden_iff_witness :
    (login demoCrypto 5 "alice" "pw" (register demoCrypto 2 "alice" "pw" State.empty).2).1
      = .sent ⟨200, .token (demoCrypto.sign 0 5)⟩ :=
  (login_forbidden_iff demoCrypto 5 "alice" "pw"
    (register demoCrypto 2 "alice" "pw" State.empty).2).2.1
    ⟨0, "alice", demoCrypto.hash "pw" 2, none, [], []⟩ (by decide) (by decide)

/-- C5: an authenticated `POST /post` appends exactly one post: its author is
`req.user.id`, its content and video are the request's, `likes = 0`,
`views = 0`, `replies = []`; its image is `null` without a file part and
otherwise `"/images/"` followed by the stored name, which is the upload time,
a hyphen and the original name, and under which the file was written.  The
earlier posts and the users are unchanged. -/
theorem createPost_appends_one_post (E : Crypto) (tU tC : Nat)
    (authorization : Option String) (reqUser : JwtPayload) (body : PostBody)
    (file : Option UploadedFile) (s : State)
    (hauth : authenticateToken E authorization = .ok reqUser) :
    (createPost E tU tC authorization body file s).1 = .sent ⟨200, .message "Post created"⟩ ∧
    (createPost E tU tC authorization body file s).2.users = s.users ∧
    ∃ post, (createPost E tU tC authorization body file s).2.posts = s.posts ++ [post] ∧
      post.user = reqUser.id ∧ post.content = body.content ∧ post.video = body.video ∧
      post.likes = 0 ∧ post.views = 0 ∧ post.replies = [] ∧
      (file = none → post.image = none ∧
        (createPost E tU tC authorization body file s).2.disk = s.disk) ∧
      (∀ f, file = some f →
        post.image = some ("/images/" ++ (toString tU ++ "-" ++ f.originalname)) ∧
        (createPost E tU tC authorization body file s).2.disk
          = s.disk ++ [toString tU ++ "-" ++ f.originalname]) := by
  cases file with
  | none => simp [createPost, hauth, uploadSingle]
  | some f => simp [createPost, hauth, uploadSingle, filename]

/-- Witness of C5: a post with content "hello" and a file `a.png`, by a
registered user holding the token of a login. -/
theorem createPost_appends_one_post_witness :
    ∃ post, (createPost demoCrypto 17 18 (some (demoCrypto.sign 0 5)) ⟨some "hello", none⟩
        (some ⟨"a.png"⟩) (register demoCrypto 2 "alice" "pw" State.empty).2).2.posts
        = (register demoCrypto 2 "alice" "pw" State.empty).2.posts ++ [post] ∧
      post.user = 0 ∧ post.content = some "hello" ∧ post.likes = 0 ∧ post.views = 0 ∧
      post.replies = [] ∧ post.image = some "/images/17-a.png" := by
  obtain ⟨post, h1, h2, h3, _, h5, h6, h7, _, h9⟩ :=
    (createPost_appends_one_post demoCrypto 17 18 (some (demoCrypto.sign 0 5)) ⟨0, 5⟩
      ⟨some "hello", none⟩ (some ⟨"a.png"⟩) (register demoCrypto 2 "alice" "pw" State.empty).2
      (by decide)).2.2
  exact ⟨post, h1, h2, h3, h5, h6, h7, (h9 ⟨"a.png"⟩ rfl).1⟩

/-- Counterexample to C2 as stated: on a state that already holds a user
"alice" registered with password "x", registering "alice" with password "y"
completes, yet the login "alice"/"y" is answered 403, because `findOne`
returns the earlier document. -/
theorem register_then_login_counterexample :
    (register demoCrypto 0 "alice" "y" (register demoCrypto 1 "alice" "x" State.empty).2).1
      = .sent ⟨200, .message "User created"⟩ ∧
    (login demoCrypto 9 "alice" "y"
      (register demoCrypto 0 "alice" "y" (register demoCrypto 1 "alice" "x" State.empty).2).2).1
      = .sent ⟨403, .message "Invalid credentials"⟩ := by
  decide

/-- C2, amended: when the state holds no user with the username, or the first
such user's hash matches the password, then after `register(u, p)` the login
`login(u, p)` returns a token. -/
theorem register_then_login (E : Crypto) (hE : E.Lawful) (salt now : Nat)
    (username password : String) (s : State)
    (h : ∀ v, findOne s.users username = some v → E.compare password v.password = true) :
    (register E salt username password s).1 = .sent ⟨200, .message "User created"⟩ ∧
    ∃ t, (login E now username password (register E salt username password s).2).1
      = .sent ⟨200, .token t⟩ := by
  refine ⟨rfl, ?_⟩
  unfold login register findOne
  simp only [List.find?_append]
  cases hf : s.users.find? (fun u => u.username == username) with
  | none =>
    refine ⟨E.sign s.nextId now, ?_⟩
    simp [List.find?, hE.compare_hash]
  | some v =>
    refine ⟨E.sign v._id now, ?_⟩
    have hv := h v hf
    simp [hv]

/-- Witness of C2, amended: a first registration on the empty state. -/
theorem register_then_login_witness :
    ∃ t, (login demoCrypto 9 "alice" "y" (register demoCrypto 0 "alice" "y" State.empty).2).1
      = .sent ⟨200, .token t⟩ :=
  (register_then_login demoCrypto demoCrypto_lawful 0 9 "alice" "y" State.empty
    (by intro v hv; simp [findOne, State.empty] at hv)).2

/-- The general form of the behaviour C8 is about: for a verified acting
identity that resolves to no user, `follow` throws a `TypeError` on the `null`
document, which nothing catches, for any `followId`; the state is unchanged and
no response is sent. -/
theorem follow_null_user_throws (E : Crypto) (authorization : Option String)
    (reqUser : JwtPayload) (followId : ObjectId) (s : State)
    (hauth : authenticateToken E authorization = .ok reqUser)
    (hnone : findById s.users reqUser.id = none) :
    follow E authorization followId s = (.uncaught .typeError, s) ∧
    (follow E authorization followId s).1.status = none := by
  simp [follow, hauth, hnone, Outcome.status]

/-- C8, on the code: a verified identity (`_id` 7) that names no user of the
state; `follow` leaves the state unchanged but throws a `TypeError` nothing
catches, so no response, and in particular no 404 "not found", reaches the
caller, whereas `login` answers the caller when its user lookup returns
`null`. -/
theorem follow_unknown_actor_unreported :
    authenticateToken demoCrypto (some (demoCrypto.sign 7 0)) = .ok ⟨7, 0⟩ ∧
    findById (register demoCrypto 0 "alice" "pw" State.empty).2.users 7 = none ∧
    follow demoCrypto (some (demoCrypto.sign 7 0)) 0
        (register demoCrypto 0 "alice" "pw" State.empty).2
      = (.uncaught .typeError, (register demoCrypto 0 "alice" "pw" State.empty).2) ∧
    (follow demoCrypto (some (demoCrypto.sign 7 0)) 0
      (register demoCrypto 0 "alice" "pw" State.empty).2).1.status ≠ some 404 ∧
    (login demoCrypto 0 "nobody" "pw" (register demoCrypto 0 "alice" "pw" State.empty).2).1.status
      = some 403 := by
  decide

/-! ### Search -/

theorem toNat_ofNat_small (n : Nat) (h : n < 256) : (Char.ofNat n).toNat = n := by
  have hv : n.isValidChar := Or.inl (by omega)
  simp only [Char.ofNat, hv, dite_true]
  simp [Char.ofNatAux, Char.toNat, UInt32.toNat]

theorem toNat_toUpper (c : Char) :
    c.toUpper.toNat = if 97 ≤ c.toNat ∧ c.toNat ≤ 122 then c.toNat - 32 else c.toNat := by
  unfold Char.toUpper
  by_cases h : c.toNat ≥ 97 ∧ c.toNat ≤ 122
  · simp only [h, and_self, if_true]
    exact toNat_ofNat_small _ (by omega)
  · simp only [h, if_false]

theorem toNat_toLower (c : Char) :
    c.toLower.toNat = if 65 ≤ c.toNat ∧ c.toNat ≤ 90 then c.toNat + 32 else c.toNat := by
  unfold Char.toLower
  by_cases h : c.toNat ≥ 65 ∧ c.toNat ≤ 90
  · simp only [h, and_self, if_true]
    exact toNat_ofNat_small _ (by omega)
  · simp only [h, if_false]

theorem char_toNat_inj {a b : Char} : a.toNat = b.toNat ↔ a = b := by
  constructor
  · intro h
    rw [← Char.ofNat_toNat a, ← Char.ofNat_toNat b, h]
  · intro h; rw [h]

/-- Two characters have the same upper-case form exactly when they have the
same lower-case form. -/
theorem canonicalize_eq_iff (c d : Char) :
    canonicalize c = canonicalize d ↔ c.toLower = d.toLower := by
  unfold canonicalize
  rw [← char_toNat_inj, ← @char_toNat_inj c.toLower, toNat_toUpper, toNat_toUpper,
    toNat_toLower, toNat_toLower]
  split <;> split <;> split <;> split <;> omega

theorem compileChars_plain (cs : List Char)
    (h : ∀ c ∈ cs, c ∉ syntaxChars ∧ c.toNat < 128) :
    compileChars cs = some (cs.map Atom.char) := by
  induction cs with
  | nil => rfl
  | cons c cs ih =>
    have hc := h c (List.mem_cons_self c cs)
    have hdot : c ≠ '.' := by
      intro e
      apply hc.1
      rw [e]
      decide
    have ih' := ih (fun d hd => h d (List.mem_cons_of_mem c hd))
    have hlt : ¬ 128 ≤ c.toNat := Nat.not_le.2 hc.2
    simp [compileChars, hdot, hc.1, hlt, ih']

theorem matchHere_chars (cs ds : List Char) :
    matchHere (cs.map Atom.char) ds = true ↔
      cs.map Char.toLower <+: ds.map Char.toLower := by
  induction cs generalizing ds with
  | nil => simp [matchHere]
  | cons c cs ih =>
    cases ds with
    | nil => simp [matchHere]
    | cons d ds =>
      simp only [List.map_cons, matchHere, Atom.accepts, Bool.and_eq_true, beq_iff_eq,
        List.cons_prefix_cons, canonicalize_eq_iff, ih ds]

theorem matchAnywhere_chars (cs ds : List Char) :
    matchAnywhere (cs.map Atom.char) ds = true ↔
      cs.map Char.toLower <:+: ds.map Char.toLower := by
  induction ds with
  | nil =>
    cases cs with
    | nil => simp [matchAnywhere, matchHere]
    | cons c cs => simp [matchAnywhere, matchHere]
  | cons d ds ih =>
    rw [matchAnywhere, Bool.or_eq_true, matchHere_chars, ih, List.map_cons,
      List.infix_cons_iff]

theorem matchAnywhere_nil (ds : List Char) : matchAnywhere [] ds = true := by
  cases ds <;> simp [matchAnywhere, matchHere]

theorem findByUsername_nil (us : List User) : findByUsername [] us = some us := by
  induction us with
  | nil => rfl
  | cons u us ih => simp [findByUsername, testUsername, matchAnywhere_nil, ih]

theorem findByUsername_ascii (re : RegExp) (us : List User)
    (h : ∀ u ∈ us, isAscii u.username.data = true) :
    findByUsername re us = some (us.filter (fun u => matchAnywhere re u.username.data)) := by
  induction us with
  | nil => rfl
  | cons u us ih =>
    have hu := h u (List.mem_cons_self u us)
    have ih' := ih (fun v hv => h v (List.mem_cons_of_mem u hv))
    cases hm : matchAnywhere re u.username.data <;>
      simp [findByUsername, testUsername, hu, hm, ih', List.filter_cons]

theorem search_sent_status {E : Crypto} {a q : Option String} {s s' : State} {out : Outcome}
    {r : JwtPayload} (ha : authenticateToken E a = .ok r)
    (h : search E a q s = some (out, s')) : out.status = some 200 ∧ s' = s := by
  cases hc : RegExp.compile q with
  | none => simp [search, ha, hc] at h
  | some re =>
    cases hf : findByUsername re s.users with
    | none => simp [search, ha, hc, hf] at h
    | some us =>
      simp only [search, ha, hc, hf, Option.some.injEq, Prod.mk.injEq] at h
      exact ⟨by rw [← h.1]; rfl, h.2.symm⟩

/-- Counterexample to C6 as stated: the query "." is a pattern that matches
any character, so `search` returns the user "Bob", whose name does not contain
"." as a substring. -/
theorem search_counterexample :
    search demoCrypto (some (demoCrypto.sign 0 5)) (some ".")
        (register demoCrypto 0 "Bob" "pw" State.empty).2
      = some (.sent ⟨200, .users [⟨0, "Bob", demoCrypto.hash "pw" 0, none, [], []⟩]⟩,
          (register demoCrypto 0 "Bob" "pw" State.empty).2) ∧
    containsIgnoreCase "Bob" "." = false := by
  decide

/-- C6, amended: for an authenticated request whose query is absent or is made
of ASCII characters other than the pattern syntax characters
(`\ ^ $ . * + ? ( ) [ ] { } |`), over a store of ASCII usernames, `search`
returns exactly the users whose username contains the query as a substring when
letter case is ignored; an empty or absent query returns every user of any
store. -/
theorem search_plain_query (E : Crypto) (authorization : Option String)
    (reqUser : JwtPayload) (query : Option String) (s : State)
    (hauth : authenticateToken E authorization = .ok reqUser)
    (hplain : ∀ q, query = some q → ∀ c ∈ q.data, c ∉ syntaxChars ∧ c.toNat < 128) :
    ((∀ u ∈ s.users, isAscii u.username.data = true) →
      search E authorization query s
        = some (.sent ⟨200, .users (s.users.filter
            (fun u => containsIgnoreCase u.username (query.getD "")))⟩, s)) ∧
    ((query = none ∨ query = some "") →
      search E authorization query s = some (.sent ⟨200, .users s.users⟩, s)) := by
  constructor
  · intro hnames
    have hre : RegExp.compile query = some ((query.getD "").data.map Atom.char) := by
      cases query with
      | none => rfl
      | some q => exact compileChars_plain q.data (hplain q rfl)
    have hfilter : s.users.filter
          (fun u => matchAnywhere ((query.getD "").data.map Atom.char) u.username.data)
        = s.users.filter (fun u => containsIgnoreCase u.username (query.getD "")) := by
      apply List.filter_congr
      intro u _
      rw [Bool.eq_iff_iff, matchAnywhere_chars]
      simp [containsIgnoreCase]
    simp only [search, hauth, hre, findByUsername_ascii _ _ hnames, hfilter]
  · intro h
    have hre : RegExp.compile query = some [] := by
      rcases h with h | h <;> subst h <;> rfl
    simp only [search, hauth, hre, findByUsername_nil]

/-- Witness of C6, amended: the query "ali" over the users "Alice", "alias"
and "Bob" returns the first two. -/
theorem search_plain_query_witness :
    search demoCrypto (some (demoCrypto.sign 0 5)) (some "ali")
        (register demoCrypto 0 "Bob" "r" (register demoCrypto 0 "alias" "q"
          (register demoCrypto 0 "Alice" "p" State.empty).2).2).2
      = some (.sent ⟨200, .users [⟨0, "Alice", demoCrypto.hash "p" 0, none, [], []⟩,
            ⟨1, "alias", demoCrypto.hash "q" 0, none, [], []⟩]⟩,
          (register demoCrypto 0 "Bob" "r" (register demoCrypto 0 "alias" "q"
            (register demoCrypto 0 "Alice" "p" State.empty).2).2).2) :=
  ((search_plain_query demoCrypto (some (demoCrypto.sign 0 5)) ⟨0, 5⟩ (some "ali")
    (register demoCrypto 0 "Bob" "r" (register demoCrypto 0 "alias" "q"
      (register demoCrypto 0 "Alice" "p" State.empty).2).2).2
    (by decide)
    (by intro q hq; cases hq; decide)).1 (by decide)).trans (by decide)

/-! ### Follow and the acting identity -/

theorem findById_id {us : List User} {id : ObjectId} {A : User}
    (h : findById us id = some A) : A._id = id := by
  have := List.find?_some h
  simpa using this

theorem findById_mem {us : List User} {id : ObjectId} {A : User}
    (h : findById us id = some A) : A ∈ us :=
  List.mem_of_find?_eq_some h

theorem findById_saveUser (us : List User) (doc : User) (id : ObjectId)
    (hd : doc._id = id) (h : (findById us id).isSome = true) :
    findById (saveUser us doc) id = some doc := by
  induction us with
  | nil => simp [findById] at h
  | cons u us ih =>
    by_cases hu : u._id = id
    · have hud : u._id = doc._id := by rw [hu, hd]
      have hp : (doc._id == id) = true := by simp [hd]
      simp only [findById, saveUser, List.map_cons, if_pos hud, List.find?_cons, hp]
    · have hn : (u._id == id) = false := by simpa using hu
      have h' : (findById us id).isSome = true := by
        simpa only [findById, List.find?_cons, hn] using h
      have ih' := ih h'
      have hne : ¬ u._id = doc._id := by rw [hd]; exact hu
      simp only [findById, saveUser, List.map_cons, if_neg hne, List.find?_cons, hn] at ih' ⊢
      exact ih'

theorem findById_of_mem {us : List User} (hn : (us.map (fun u => u._id)).Nodup)
    {A : User} (hA : A ∈ us) : findById us A._id = some A := by
  induction us with
  | nil => simp at hA
  | cons u us ih =>
    rw [List.map_cons, List.nodup_cons] at hn
    rcases List.mem_cons.1 hA with e | hmem
    · subst e
      simp [findById]
    · have hne : (u._id == A._id) = false := by
        rw [beq_eq_false_iff_ne]
        intro e
        apply hn.1
        rw [e]
        exact List.mem_map_of_mem (fun u => u._id) hmem
      have := ih hn.2 hmem
      simp only [findById, List.find?_cons, hne] at this ⊢
      exact this

/-- C7: when the acting user `A` exists, `follow` with any `followId` `B`
answers "User followed" and replaces `A`'s document by the same document with
`B` appended at the end of `followers`; every document with another `_id`, the
posts and the upload directory are unchanged.  Following `B` twice leaves two
more occurrences of `B` in `A`'s list. -/
theorem follow_appends (E : Crypto) (authorization : Option String) (reqUser : JwtPayload)
    (A : User) (B : ObjectId) (s : State)
    (hauth : authenticateToken E authorization = .ok reqUser)
    (hA : findById s.users reqUser.id = some A) :
    (follow E authorization B s).1 = .sent ⟨200, .message "User followed"⟩ ∧
    (follow E authorization B s).2.users
      = s.users.map (fun u =>
          if u._id = A._id then { A with followers := A.followers ++ [B] } else u) ∧
    findById (follow E authorization B s).2.users reqUser.id
      = some { A with followers := A.followers ++ [B] } ∧
    (follow E authorization B s).2.posts = s.posts ∧
    (follow E authorization B s).2.disk = s.disk ∧
    (follow E authorization B s).2.nextId = s.nextId ∧
    ∃ A2, findById (follow E authorization B (follow E authorization B s).2).2.users reqUser.id
        = some A2 ∧
      A2.followers = A.followers ++ [B, B] ∧
      A2.followers.count B = A.followers.count B + 2 ∧
      A2._id = A._id ∧ A2.username = A.username ∧ A2.password = A.password ∧
      A2.profilePicture = A.profilePicture ∧ A2.notifications = A.notifications := by
  have hid : A._id = reqUser.id := findById_id hA
  have h1 : follow E authorization B s
      = (.sent ⟨200, .message "User followed"⟩,
         { s with users := saveUser s.users { A with followers := A.followers ++ [B] } }) := by
    simp [follow, hauth, hA]
  have hf1 : findById (saveUser s.users { A with followers := A.followers ++ [B] }) reqUser.id
      = some { A with followers := A.followers ++ [B] } :=
    findById_saveUser s.users _ reqUser.id hid (by rw [hA]; rfl)
  have h2 : follow E authorization B
      { s with users := saveUser s.users { A with followers := A.followers ++ [B] } }
      = (.sent ⟨200, .message "User followed"⟩,
         { s with users := (saveUser
            (saveUser s.users { A with followers := A.followers ++ [B] })
            { A with followers := (A.followers ++ [B]) ++ [B] }) }) := by
    simp [follow, hauth, hf1]
  have hf2 := findById_saveUser
    (saveUser s.users { A with followers := A.followers ++ [B] })
    { A with followers := (A.followers ++ [B]) ++ [B] } reqUser.id hid (by rw [hf1]; rfl)
  rw [h1]
  refine ⟨rfl, rfl, hf1, rfl, rfl, rfl, ?_⟩
  rw [h2]
  refine ⟨_, hf2, ?_, ?_, rfl, rfl, rfl, rfl, rfl⟩
  · simp
  · simp [List.count_append]

/-- Witness of C7: the user with `_id` 0 follows the `_id` 4, which names no
user, twice. -/
theorem follow_appends_witness :
    ∃ A2, findById (follow demoCrypto (some (demoCrypto.sign 0 5)) 4
        (follow demoCrypto (some (demoCrypto.sign 0 5)) 4
          (register demoCrypto 2 "alice" "pw" State.empty).2).2).2.users 0 = some A2 ∧
      A2.followers = [4, 4] :=
  let ⟨A2, h1, h2, _⟩ :=
    (follow_appends demoCrypto (some (demoCrypto.sign 0 5)) ⟨0, 5⟩
      ⟨0, "alice", demoCrypto.hash "pw" 2, none, [], []⟩ 4
      (register demoCrypto 2 "alice" "pw" State.empty).2 (by decide) (by decide)).2.2.2.2.2.2
  ⟨A2, h1, h2⟩

/-- C4: for a user `A` of the state, the token `jwt.sign` makes for `A._id`
(the one `login` returns when it finds `A`), sent as the Authorization header,
passes `authenticateToken` with `req.user.id = A._id`; with it `createPost`
stores a post whose author reference is `A._id`, `listPosts` and `search`
answer 200, and `follow` and `getNotifications` load `A`'s document. -/
theorem issued_token_resolves (E : Crypto) (hE : E.Lawful) (s : State) (hs : UniqueIds s)
    (A : User) (hA : A ∈ s.users) (now : Nat) :
    (∀ u p, findOne s.users u = some A → E.compare p A.password = true →
      (login E now u p s).1 = .sent ⟨200, .token (E.sign A._id now)⟩) ∧
    authenticateToken E (some (E.sign A._id now)) = .ok ⟨A._id, now⟩ ∧
    (∀ tU tC body file, ∃ post,
      (createPost E tU tC (some (E.sign A._id now)) body file s).2.posts = s.posts ++ [post] ∧
      post.user = A._id) ∧
    (listPosts E (some (E.sign A._id now)) s).1.status = some 200 ∧
    (∀ q out s', search E (some (E.sign A._id now)) q s = some (out, s') →
      out.status = some 200) ∧
    (∀ B, follow E (some (E.sign A._id now)) B s
      = (.sent ⟨200, .message "User followed"⟩,
         { s with users := saveUser s.users { A with followers := A.followers ++ [B] } })) ∧
    getNotifications E (some (E.sign A._id now)) s
      = (.sent ⟨200, .notifications A.notifications⟩, s) := by
  have hauth := authenticateToken_sign hE A._id now
  have hfind : findById s.users A._id = some A := findById_of_mem hs hA
  refine ⟨?_, hauth, ?_, ?_, ?_, ?_, ?_⟩
  · intro u p hu hp
    simp [login, hu, hp]
  · intro tU tC body file
    cases file <;> simp [createPost, hauth, uploadSingle]
  · simp [listPosts, hauth, Outcome.status]
  · intro q out s' h
    exact (search_sent_status hauth h).1
  · intro B
    simp [follow, hauth, hfind]
  · simp [getNotifications, hauth, hfind]

/-- Witness of C4: the second of two registered users. -/
theorem issued_token_resolves_witness :
    authenticateToken demoCrypto (some (demoCrypto.sign 1 5)) = .ok ⟨1, 5⟩ ∧
    getNotifications demoCrypto (some (demoCrypto.sign 1 5))
        (register demoCrypto 3 "bob" "b" (register demoCrypto 2 "alice" "a" State.empty).2).2
      = (.sent ⟨200, .notifications []⟩,
         (register demoCrypto 3 "bob" "b" (register demoCrypto 2 "alice" "a" State.empty).2).2) :=
  let h := issued_token_resolves demoCrypto demoCrypto_lawful
    (register demoCrypto 3 "bob" "b" (register demoCrypto 2 "alice" "a" State.empty).2).2
    (by decide) ⟨1, "bob", demoCrypto.hash "b" 3, none, [], []⟩ (by decide) 5
  ⟨h.2.1, h.2.2.2.2.2.2⟩

/-! ### What each handler does to the state -/

theorem login_state (E : Crypto) (now : Nat) (u p : String) (s : State) :
    (login E now u p s).2 = s := by
  unfold login
  split
  · rfl
  · split <;> rfl

theorem listPosts_state (E : Crypto) (a : Option String) (s : State) :
    (listPosts E a s).2 = s := by
  unfold listPosts
  split <;> rfl

theorem search_state {E : Crypto} {a q : Option String} {s s' : State} {out : Outcome}
    (h : search E a q s = some (out, s')) : s' = s := by
  cases ha : authenticateToken E a with
  | error r =>
    simp only [search, ha, Option.some.injEq, Prod.mk.injEq] at h
    exact h.2.symm
  | ok r => exact (search_sent_status ha h).2

theorem getNotifications_state (E : Crypto) (a : Option String) (s : State) :
    (getNotifications E a s).2 = s := by
  unfold getNotifications
  split
  · rfl
  · split <;> rfl

theorem follow_state (E : Crypto) (a : Option String) (B : ObjectId) (s : State) :
    (follow E a B s).2 = s ∨
    ∃ r A, authenticateToken E a = .ok r ∧ findById s.users r.id = some A ∧
      (follow E a B s).2
        = { s with users := saveUser s.users { A with followers := A.followers ++ [B] } } := by
  cases ha : authenticateToken E a with
  | error r => left; simp [follow, ha]
  | ok r =>
    cases hf : findById s.users r.id with
    | none => left; simp [follow, ha, hf]
    | some A => right; exact ⟨r, A, rfl, hf, by simp [follow, ha, hf]⟩

theorem createPost_state (E : Crypto) (tU tC : Nat) (a : Option String) (body : PostBody)
    (file : Option UploadedFile) (s : State) :
    (createPost E tU tC a body file s).2 = s ∨
    ∃ r post disk, authenticateToken E a = .ok r ∧ post.user = r.id ∧ post.likes = 0 ∧
      post.views = 0 ∧ post.replies = [] ∧
      (createPost E tU tC a body file s).2
        = { s with posts := s.posts ++ [post], disk := disk, nextId := s.nextId + 1 } := by
  cases ha : authenticateToken E a with
  | error r => left; simp [createPost, ha]
  | ok r =>
    right
    cases file with
    | none =>
      exact ⟨r, ⟨s.nextId, r.id, body.content, none, body.video, 0, 0, [], tC⟩, s.disk,
        rfl, rfl, rfl, rfl, rfl, by simp [createPost, ha, uploadSingle]⟩
    | some f =>
      exact ⟨r, ⟨s.nextId, r.id, body.content, some ("/images/" ++ filename tU f), body.video,
        0, 0, [], tC⟩, s.disk ++ [filename tU f],
        rfl, rfl, rfl, rfl, rfl, by simp [createPost, ha, uploadSingle]⟩

theorem saveUser_ids (us : List User) (doc : User) :
    (saveUser us doc).map (fun u => u._id) = us.map (fun u => u._id) := by
  unfold saveUser
  rw [List.map_map]
  apply List.map_congr_left
  intro u _
  by_cases h : u._id = doc._id
  · simp [h]
  · simp [h]

theorem step_posts_prefix {E : Crypto} {s s' : State} (h : Step E s s') :
    s.posts <+: s'.posts := by
  cases h with
  | register salt u p => exact List.prefix_rfl
  | login now u p => rw [login_state]
  | createPost tU tC a body file =>
    rcases createPost_state E tU tC a body file s with e | ⟨r, post, disk, _, _, _, _, _, e⟩
    · rw [e]
    · rw [e]; exact List.prefix_append _ _
  | listPosts a => rw [listPosts_state]
  | search a q _ out _ hs => rw [search_state hs]
  | follow a B =>
    rcases follow_state E a B s with e | ⟨r, A, _, _, e⟩
    · rw [e]
    · rw [e]
  | getNotifications a => rw [getNotifications_state]

theorem step_untouched {E : Crypto} {s s' : State} (h : Step E s s') (hs : Untouched s) :
    Untouched s' := by
  cases h with
  | register salt u p =>
    refine ⟨hs.1, ?_⟩
    intro v hv
    simp only [register, List.mem_append, List.mem_singleton] at hv
    rcases hv with hv | hv
    · exact hs.2 v hv
    · rw [hv]
  | login now u p => rw [login_state]; exact hs
  | createPost tU tC a body file =>
    rcases createPost_state E tU tC a body file s with e | ⟨r, post, disk, _, _, h1, h2, h3, e⟩
    · rw [e]; exact hs
    · rw [e]
      refine ⟨?_, hs.2⟩
      intro p hp
      simp only [List.mem_append, List.mem_singleton] at hp
      rcases hp with hp | hp
      · exact hs.1 p hp
      · rw [hp]; exact ⟨h1, h2, h3⟩
  | listPosts a => rw [listPosts_state]; exact hs
  | search a q _ out _ h' => rw [search_state h']; exact hs
  | follow a B =>
    rcases follow_state E a B s with e | ⟨r, A, _, hA, e⟩
    · rw [e]; exact hs
    · rw [e]
      refine ⟨hs.1, ?_⟩
      intro v hv
      simp only [saveUser, List.mem_map] at hv
      obtain ⟨w, hw, rfl⟩ := hv
      by_cases hid : w._id = A._id
      · simp only [hid, if_true]
        exact hs.2 A (findById_mem hA)
      · simp only [hid, if_false]
        exact hs.2 w hw
  | getNotifications a => rw [getNotifications_state]; exact hs

theorem reachable_untouched {E : Crypto} {s : State} (h : Reachable E s) : Untouched s := by
  induction h with
  | refl => exact ⟨by simp [State.empty], by simp [State.empty]⟩
  | tail _ hstep ih => exact step_untouched hstep ih

/-- C10: in every state reachable from the empty state by requests to the
seven endpoints, every post has `likes = 0`, `views = 0` and `replies = []`,
every user has an empty notification list, so `getNotifications` answers `[]`
for every acting identity it resolves, and a further request to any endpoint
keeps the existing posts, unmodified and in place, as a prefix of the posts. -/
theorem counters_and_notifications_untouched (E : Crypto) (s : State)
    (h : Reachable E s) :
    (∀ p ∈ s.posts, p.likes = 0 ∧ p.views = 0 ∧ p.replies = []) ∧
    (∀ u ∈ s.users, u.notifications = []) ∧
    (∀ a r A, authenticateToken E a = .ok r → findById s.users r.id = some A →
      getNotifications E a s = (.sent ⟨200, .notifications []⟩, s)) ∧
    (∀ s', Step E s s' → s.posts <+: s'.posts) := by
  have hu := reachable_untouched h
  refine ⟨hu.1, hu.2, ?_, fun s' hs' => step_posts_prefix hs'⟩
  intro a r A ha hA
  have hn := hu.2 A (findById_mem hA)
  simp [getNotifications, ha, hA, hn]

/-- Witness of C10: the state after a registration and a post. -/
theorem counters_and_notifications_untouched_witness :
    (∀ p ∈ (createPost demoCrypto 17 18 (some (demoCrypto.sign 0 5)) ⟨some "hello", none⟩ none
        (register demoCrypto 2 "alice" "pw" State.empty).2).2.posts,
      p.likes = 0 ∧ p.views = 0 ∧ p.replies = []) ∧
    (∀ u ∈ (createPost demoCrypto 17 18 (some (demoCrypto.sign 0 5)) ⟨some "hello", none⟩ none
        (register demoCrypto 2 "alice" "pw" State.empty).2).2.users,
      u.notifications = []) :=
  let h := counters_and_notifications_untouched demoCrypto
    (createPost demoCrypto 17 18 (some (demoCrypto.sign 0 5)) ⟨some "hello", none⟩ none
      (register demoCrypto 2 "alice" "pw" State.empty).2).2
    (Relation.ReflTransGen.tail
      (Relation.ReflTransGen.single (Step.register 2 "alice" "pw" State.empty))
      (Step.createPost 17 18 (some (demoCrypto.sign 0 5)) ⟨some "hello", none⟩ none _))
  ⟨h.1, h.2.1⟩

/-! ### Runs and the author reference -/

theorem login_token_resolves {E : Crypto} (hE : E.Lawful) {now : Nat} {u p : String}
    {s : State} {t : String}
    (h : (login E now u p s).1 = .sent ⟨200, .token t⟩) :
    ∃ r, authenticateToken E (some t) = .ok r ∧ r.id ∈ s.users.map (fun u => u._id) := by
  unfold login at h
  cases hf : findOne s.users u with
  | none => simp [hf] at h
  | some v =>
    cases hc : E.compare p v.password with
    | false => simp [hf, hc] at h
    | true =>
      simp only [hf, hc, Bool.true_eq_false, if_false, Outcome.sent.injEq, Response.mk.injEq,
        Body.token.injEq, true_and] at h
      rw [← h]
      exact ⟨⟨v._id, now⟩, authenticateToken_sign hE v._id now,
        List.mem_map_of_mem (fun u => u._id) (List.mem_of_find?_eq_some hf)⟩

theorem findById_of_mem_ids {us : List User} {i : ObjectId}
    (h : i ∈ us.map (fun u => u._id)) : ∃ u, findById us i = some u := by
  obtain ⟨w, hw, hwi⟩ := List.mem_map.1 h
  have hsome : (findById us i).isSome = true := by
    unfold findById
    rw [List.find?_isSome]
    exact ⟨w, hw, by simpa using hwi⟩
  exact Option.isSome_iff_exists.1 hsome

theorem run_inv {E : Crypto} {s : State} (h : ResolvedRun E s) : RunInv s := by
  induction h with
  | init =>
    refine ⟨?_, ?_, ?_⟩
    · simp [UniqueIds, State.empty]
    · simp [State.empty]
    · simp [State.empty]
  | register salt u p _ ih =>
    obtain ⟨h1, h2, h4⟩ := ih
    refine ⟨?_, ?_, ?_⟩
    · unfold UniqueIds at h1 ⊢
      simp only [register, List.map_append, List.map_cons, List.map_nil]
      rw [List.nodup_append]
      refine ⟨h1, List.nodup_singleton _, ?_⟩
      intro i hi hi'
      rw [List.mem_singleton] at hi'
      exact Nat.ne_of_lt (h2 i hi) hi'
    · intro i hi
      simp only [register, List.map_append, List.map_cons, List.map_nil, List.mem_append,
        List.mem_singleton] at hi ⊢
      rcases hi with hi | hi
      · exact Nat.lt_succ_of_lt (h2 i hi)
      · rw [hi]; exact Nat.lt_succ_self _
    · intro q hq
      simp only [register, List.map_append, List.mem_append]
      exact Or.inl (h4 q hq)
  | login now u p _ ih =>
    rw [login_state]
    exact ih
  | createPost tU tC a body file r _ hauth hres ih =>
    obtain ⟨h1, h2, h4⟩ := ih
    rcases createPost_state E tU tC a body file _ with e' | ⟨r', post, disk, hr, hp, _, _, _, e'⟩
    · rw [e']; exact ⟨h1, h2, h4⟩
    · rw [e']
      rw [hauth] at hr
      have hri : r'.id = r.id := by cases hr; rfl
      refine ⟨h1, fun j hj => Nat.lt_succ_of_lt (h2 j hj), ?_⟩
      intro q hq
      rcases List.mem_append.1 hq with hq | hq
      · exact h4 q hq
      · rw [List.mem_singleton] at hq
        rw [hq, hp, hri]
        exact hres
  | follow a B r _ _ ih =>
    obtain ⟨h1, h2, h4⟩ := ih
    rcases follow_state E a B _ with e' | ⟨r', A, _, _, e'⟩
    · rw [e']; exact ⟨h1, h2, h4⟩
    · rw [e']
      refine ⟨?_, ?_, ?_⟩
      · unfold UniqueIds at h1 ⊢
        simp only [saveUser_ids]
        exact h1
      · simp only [saveUser_ids]
        exact h2
      · simp only [saveUser_ids]
        exact h4

/-- Counterexample to C9 as stated: "alice" registers and logs in, then a post
is created with a header `authenticateToken` accepts for the `_id` 7, which no
user has; the state is reached by register, login and an authenticated
`createPost`, and `listPosts` returns that post with the author `null`. -/
theorem listPosts_populates_authors_counterexample :
    AuthRun demoCrypto demoDangling ∧
    authenticateToken demoCrypto (some (demoCrypto.sign 7 0)) = .ok ⟨7, 0⟩ ∧
    listPosts demoCrypto (some demoToken) demoDangling
      = (.sent ⟨200, .posts [⟨1, none, some "hi", none, none, 0, 0, [], 18⟩]⟩,
          demoDangling) :=
  ⟨AuthRun.createPost 17 18 (some (demoCrypto.sign 7 0)) ⟨some "hi", none⟩ none ⟨7, 0⟩
      (AuthRun.login 5 "alice" "pw" (AuthRun.register 2 "alice" "pw" AuthRun.init))
      (by decide),
    by decide, by decide⟩

/-- C9, amended: in every state of a run from the empty state made of
registrations, logins, authenticated follows, and authenticated post creations
whose acting identity is the `_id` of a user stored at the time, `listPosts`
answers with one entry per stored post, in store order, each carrying the
post's fields and, as its author, the one stored `User` document whose `_id`
is the post's author reference (a document, not `null`). -/
theorem listPosts_populates_authors (E : Crypto) (s : State) (hrun : ResolvedRun E s)
    (authorization : Option String) (reqUser : JwtPayload)
    (hauth : authenticateToken E authorization = .ok reqUser) :
    ∃ l, listPosts E authorization s = (.sent ⟨200, .posts l⟩, s) ∧
      List.Forall₂ (fun (p : Post) (q : PopulatedPost) =>
        q._id = p._id ∧ q.content = p.content ∧ q.image = p.image ∧ q.video = p.video ∧
        q.likes = p.likes ∧ q.views = p.views ∧ q.replies = p.replies ∧
        q.createdAt = p.createdAt ∧
        ∃ u, q.user = some u ∧ u ∈ s.users ∧ u._id = p.user ∧
          ∀ v ∈ s.users, v._id = p.user → v = u) s.posts l := by
  obtain ⟨h1, _, h4⟩ := run_inv hrun
  refine ⟨s.posts.map (populate s.users), by simp [listPosts, hauth], ?_⟩
  rw [List.forall₂_map_right_iff, List.forall₂_same]
  intro p hp
  obtain ⟨u, hu⟩ := findById_of_mem_ids (h4 p hp)
  refine ⟨rfl, rfl, rfl, rfl, rfl, rfl, rfl, rfl, u, hu, findById_mem hu, findById_id hu, ?_⟩
  intro v hv hvid
  have := findById_of_mem h1 hv
  rw [hvid, hu] at this
  exact (Option.some.inj this).symm

/-- Witness of C9, amended: after "alice" registers, logs in and creates two
posts with the token of the login, the listing has two entries. -/
theorem listPosts_populates_authors_witness :
    ∃ l, listPosts demoCrypto (some demoToken) demoTwoPosts
        = (.sent ⟨200, .posts l⟩, demoTwoPosts) ∧ l.length = 2 :=
  let ⟨l, h1, h2⟩ := listPosts_populates_authors demoCrypto demoTwoPosts
    (ResolvedRun.createPost 20 21 (some demoToken) ⟨some "second", none⟩ none ⟨0, 5⟩
      (ResolvedRun.createPost 17 18 (some demoToken) ⟨some "first", none⟩ none ⟨0, 5⟩
        (ResolvedRun.login 5 "alice" "pw" (ResolvedRun.register 2 "alice" "pw" ResolvedRun.init))
        (by decide) (by decide))
      (by decide) (by decide))
    (some demoToken) ⟨0, 5⟩ (by decide)
  ⟨l, h1, h2.length_eq.symm.trans (by decide)⟩

end Alligator
